import Mathlib

/-!
Verification development for the ChessLink realtime chess-session core.

The repository contains two generations of the session core, both present in
the source tree:

* the `GameManager` of `src/gameManager/index.ts` found in `src/unnamed/part_005`
  (player registry `playerMap : Map<userId, Game>`, games carry typed
  `players.{white,black} : {id, connected}` slots, `drawOfferedBy : Color`,
  `outcome`), together with the `CleaningService` of `src/unnamed/part_006`
  (cleanup-protocol callback); embedded below with an `A` suffix;
* the `GameManager` of `src/src/gameManager/index.ts`
  (`userMap : Map<userId, gameId>`, games carry `players.{white,black} :
  string | null`, `offeredDraw : string`, `lastMove`, no outcome field),
  together with the `CleaningService` of `src/unnamed/part_007`; embedded
  below with a `B` suffix (and `V7` for its cleaning service).

JavaScript `Map` objects are embedded as association lists with the exact
`get` / `set` / `delete` semantics (set replaces in place, otherwise appends).
In the `A` manager, `playerMap` stores shared references to the same `Game`
objects held by `gameMap`; the embedding represents the heap by `gameMap`
(keyed by game id) and represents each reference by its game id.  Timestamps
(`Date.now()`) and generated ids are nondeterministic in the source and are
passed as explicit parameters.  The chess.js rules engine is an external
dependency (out of scope per the specification); it enters the embedding as
an explicit `Engine` parameter recording exactly the operations the core
calls: constructing an instance from a FEN string (which can fail), reading
the side to move, applying a move (which can fail), and the terminal-state
predicates.
-/

/-- One of the two fixed sides of a match (source: `Color` in `src/types/index.ts`). -/
inductive Color where
  | white
  | black
deriving DecidableEq

/-- A player slot value (source: `Player` in `src/types/index.ts`). -/
structure Player where
  id : String
  connected : Bool
deriving DecidableEq

/-- Reason component of an outcome (source: `Outcome.reason` union in `src/types/index.ts`). -/
inductive Reason where
  | checkmate
  | resignation
  | timeout
  | draw
  | stalemate
  | insufficient_material
  | threefold_repetition
deriving DecidableEq

/-- Terminal outcome of a match (source: `Outcome` in `src/types/index.ts`). -/
structure Outcome where
  winner : Option Color
  reason : Reason
deriving DecidableEq

/-- A move intent (source: `Move` in `src/types/index.ts`; `from`/`to` renamed
because `from` is reserved in Lean). -/
structure Move where
  fromSq : String
  toSq : String
  promotion : Option String := none
deriving DecidableEq

/-- Match record of the part_005 manager (source: `Game` in `src/types/index.ts`).
The `players` object is flattened into the two optional slots. -/
structure Game where
  id : String
  createdAt : Int
  updatedAt : Int
  fen : String
  white : Option Player
  black : Option Player
  moves : List Move
  joinable : Bool
  drawOfferedBy : Option Color
  outcome : Option Outcome
deriving DecidableEq

/-- Match record of the `src/src` manager (source: `Game` in `src/types/Game.ts`:
players are bare user ids, a draw offer stores the offering user id, there are
`lastMove` and `moveHistory` fields and no outcome field). -/
structure GameB where
  id : String
  joinable : Bool
  fen : String
  white : Option String
  black : Option String
  offeredDraw : Option String
  lastMove : Option Move
  moveHistory : List Move
  createdAt : Int
  updatedAt : Int
deriving DecidableEq

/-- `Map.get`: value at the first (unique, for maps built by `mapSet`) matching key. -/
def mapGet {α : Type} (m : List (String × α)) (k : String) : Option α :=
  match m with
  | [] => none
  | (k1, v) :: rest => if k1 = k then some v else mapGet rest k

/-- `Map.set`: replace the entry in place if the key is present, else append. -/
def mapSet {α : Type} (m : List (String × α)) (k : String) (v : α) : List (String × α) :=
  match m with
  | [] => [(k, v)]
  | (k1, v1) :: rest => if k1 = k then (k, v) :: rest else (k1, v1) :: mapSet rest k v

/-- `Map.delete`: remove the entry with the given key. -/
def mapDelete {α : Type} (m : List (String × α)) (k : String) : List (String × α) :=
  match m with
  | [] => []
  | (k1, v1) :: rest => if k1 = k then mapDelete rest k else (k1, v1) :: mapDelete rest k

/-- Snapshot of a chess.js instance as observed by the core: the side to move
(`turn()` returns the character w or b), the serialized position (`fen()`),
and the terminal-condition predicates the core queries. -/
structure EngineState where
  turn : Char
  fen : String
  isCheckmate : Bool
  isStalemate : Bool
  isInsufficientMaterial : Bool
  isThreefoldRepetition : Bool
  isDraw : Bool
  isGameOver : Bool

/-- The external rules engine (chess.js) at the boundary used by the core:
`init` is `new Chess()`, `load fen` is `new Chess(fen)` (`none` when the
constructor throws on a bad FEN), `move` applies a move intent (`none` when
the move is rejected). -/
structure Engine where
  init : EngineState
  load : String → Option EngineState
  move : EngineState → Move → Option EngineState

/-- `new Chess().fen()`: the standard chess starting position. -/
def startFen : String := "rnbqkbnr/pppppppp/8/8/8/8/PPPPPPPP/RNBQKBNR w KQkq - 0 1"

/-- Result of a per-game operation of the part_005 manager.  Each constructor
carries the state of the game record when the operation finished: `fault`
translates a thrown `StateSyncError` (always raised before any field is
written), `reject` translates `return undefined` (always reached before any
field is written), `ok` translates returning the mutated game. -/
inductive GMResult where
  | fault (g : Game)
  | reject (g : Game)
  | ok (g : Game)
deriving DecidableEq

/-- `GameManager.getPlayerColor` (part_005 lines 60-64). -/
def getPlayerColor (g : Game) (pid : String) : Option Color :=
  if g.white.map Player.id = some pid then some Color.white
  else if g.black.map Player.id = some pid then some Color.black
  else none

/-- Line 295 of part_005: `chess.turn() === 'w' ? 'white' : 'black'`. -/
def turnColorOf (st : EngineState) : Color :=
  if st.turn = 'w' then Color.white else Color.black

/-- `GameManager.offerDraw` (part_005 lines 195-221), after the game was
fetched from `playerMap` (the not-in-a-game guard lives in the manager-level
wrapper `offerDrawM`). -/
def offerDrawA (g : Game) (pid : String) (now : Int) : GMResult :=
  if g.outcome.isSome then GMResult.reject g
  else if g.drawOfferedBy.isSome then GMResult.reject g
  else
    match getPlayerColor g pid with
    | none => GMResult.fault g
    | some c => GMResult.ok { g with drawOfferedBy := some c, updatedAt := now }

/-- `GameManager.acceptDraw` (part_005 lines 223-253), after the game fetch. -/
def acceptDrawA (g : Game) (pid : String) (now : Int) : GMResult :=
  if g.outcome.isSome then GMResult.reject g
  else if g.drawOfferedBy.isNone then GMResult.reject g
  else
    match getPlayerColor g pid with
    | none => GMResult.fault g
    | some c =>
      if g.drawOfferedBy = some c then GMResult.reject g
      else GMResult.ok { g with outcome := some ⟨none, Reason.draw⟩,
                                drawOfferedBy := none, updatedAt := now }

/-- `GameManager.resign` (part_005 lines 255-280), after the game fetch. -/
def resignA (g : Game) (pid : String) (now : Int) : GMResult :=
  if g.outcome.isSome then GMResult.reject g
  else
    match getPlayerColor g pid with
    | none => GMResult.fault g
    | some c =>
      let winnerColor := if c = Color.white then Color.black else Color.white
      GMResult.ok { g with outcome := some ⟨some winnerColor, Reason.resignation⟩,
                           updatedAt := now }

/-- Terminal-condition cascade of `GameManager.makeMove` (part_005 lines
314-325), applied to the game after its fen, move list and timestamp were
already written. -/
def concludeA (playerColor : Color) (chess2 : EngineState) (g1 : Game) : Game :=
  if chess2.isCheckmate then { g1 with outcome := some ⟨some playerColor, Reason.checkmate⟩ }
  else if chess2.isStalemate then { g1 with outcome := some ⟨none, Reason.stalemate⟩ }
  else if chess2.isInsufficientMaterial then
    { g1 with outcome := some ⟨none, Reason.insufficient_material⟩ }
  else if chess2.isThreefoldRepetition then
    { g1 with outcome := some ⟨none, Reason.threefold_repetition⟩ }
  else if chess2.isDraw then { g1 with outcome := some ⟨none, Reason.draw⟩ }
  else g1

/-- `GameManager.makeMove` (part_005 lines 282-336), after the game fetch.
A `new Chess(game.fen)` constructor throw is caught by the surrounding
try/catch and surfaces as `return undefined`, hence `reject` on `load`
failure; an engine-rejected move likewise becomes `reject` with no game
field written. -/
def makeMoveA (e : Engine) (g : Game) (pid : String) (mv : Move) (now : Int) : GMResult :=
  if g.outcome.isSome then GMResult.reject g
  else
    match getPlayerColor g pid with
    | none => GMResult.fault g
    | some playerColor =>
      match e.load g.fen with
      | none => GMResult.reject g
      | some chess =>
        if turnColorOf chess ≠ playerColor then GMResult.reject g
        else
          match e.move chess mv with
          | none => GMResult.reject g
          | some chess2 =>
            GMResult.ok (concludeA playerColor chess2
              { g with fen := chess2.fen, moves := g.moves ++ [mv], updatedAt := now })

/-- Registry state of the part_005 manager: `playerMap : Map<userId, Game>`
holds references to the same objects as `gameMap : Map<gameId, Game>`; the
embedding keys the heap by game id (`gameMap`) and stores the referenced id
in `playerBind`. -/
structure ManagerA where
  playerBind : List (String × String)
  gameMap : List (String × Game)
deriving DecidableEq

/-- Dereference `playerMap.get(playerId)` through the heap. -/
def lookupPlayerGame (st : ManagerA) (pid : String) : Option Game :=
  (mapGet st.playerBind pid).bind (mapGet st.gameMap)

/-- `GameManager.createGame` (part_005 lines 137-165).  The generated unique
id, `Date.now()` and `new Chess().fen()` arrive as parameters `newId`, `now`
and `fen0`.  A bound player (`playerMap.get` truthy) is rejected before
anything is created. -/
def createGameA (st : ManagerA) (pid : String) (color : Color) (newId : String)
    (now : Int) (fen0 : String) : ManagerA × Option Game :=
  if (mapGet st.playerBind pid).isSome then (st, none)
  else
    let g : Game :=
      { id := newId
        createdAt := now
        updatedAt := now
        fen := fen0
        white := if color = Color.white then some ⟨pid, true⟩ else none
        black := if color = Color.black then some ⟨pid, true⟩ else none
        moves := []
        joinable := true
        drawOfferedBy := none
        outcome := none }
    ({ playerBind := mapSet st.playerBind pid newId,
       gameMap := mapSet st.gameMap newId g }, some g)

/-- `GameManager.joinGame` (part_005 lines 167-190): reject when the game is
unknown or both slots are filled; otherwise fill the slot opposite the
occupied one (`game.players.white ? 'black' : 'white'`), set
`joinable = false`, bump `updatedAt` and bind the joining player. -/
def joinGameA (st : ManagerA) (pid gameId : String) (now : Int) : ManagerA × Option Game :=
  match mapGet st.gameMap gameId with
  | none => (st, none)
  | some g =>
    if g.white.isSome ∧ g.black.isSome then (st, none)
    else
      let g2 :=
        if g.white.isSome then { g with black := some ⟨pid, true⟩, joinable := false, updatedAt := now }
        else { g with white := some ⟨pid, true⟩, joinable := false, updatedAt := now }
      ({ playerBind := mapSet st.playerBind pid gameId,
         gameMap := mapSet st.gameMap gameId g2 }, some g2)

/-- `GameManager.eraseGame` (part_005 lines 67-77): guard on falsy id (empty
string), then delete the binding of each id found in a player slot of the
erased game (skipping the falsy empty id), then delete the game itself. -/
def eraseGameA (st : ManagerA) (g : Game) : ManagerA :=
  if g.id = "" then st
  else
    let pb1 :=
      match g.white with
      | some p => if p.id = "" then st.playerBind else mapDelete st.playerBind p.id
      | none => st.playerBind
    let pb2 :=
      match g.black with
      | some p => if p.id = "" then pb1 else mapDelete pb1 p.id
      | none => pb1
    { playerBind := pb2, gameMap := mapDelete st.gameMap g.id }

/-- Return channel of a manager-level game operation: a propagated
`StateSyncError`, `undefined`, or the returned game. -/
inductive MRet where
  | fault
  | noneR
  | someR (g : Game)
deriving DecidableEq

/-- Manager-level `offerDraw`: fetch via `playerMap`, run the per-game body,
write the mutated game back to the shared heap. -/
def offerDrawM (st : ManagerA) (pid : String) (now : Int) : ManagerA × MRet :=
  match lookupPlayerGame st pid with
  | none => (st, MRet.noneR)
  | some g =>
    match offerDrawA g pid now with
    | GMResult.fault _ => (st, MRet.fault)
    | GMResult.reject _ => (st, MRet.noneR)
    | GMResult.ok g2 => ({ st with gameMap := mapSet st.gameMap g.id g2 }, MRet.someR g2)

/-- Registry state of the `src/src` manager: `userMap : Map<userId, gameId>`,
`gameMap : Map<gameId, Game>`. -/
structure ManagerB where
  userMap : List (String × String)
  gameMap : List (String × GameB)
deriving DecidableEq

/-- `GameManager.getUserGame` (`src/src/gameManager/index.ts` lines 36-39):
`userMap.get(userId)` then `gameMap.get(gameId)` (a missing binding makes the
second lookup miss as well). -/
def getUserGameB (st : ManagerB) (userId : String) : Option GameB :=
  (mapGet st.userMap userId).bind (mapGet st.gameMap)

/-- `GameManager.createGame` (`src/src/gameManager/index.ts` lines 72-94).
The generated id and `Date.now()` are the `gameId` and `now` parameters; the
invalid-color throw guard is unrepresentable because `Color` is already the
two-valued union.  No bound-player check exists: the binding is overwritten
unconditionally. -/
def createGameB (st : ManagerB) (userId : String) (color : Color) (gameId : String)
    (now : Int) : ManagerB × GameB :=
  let game : GameB :=
    { id := gameId
      joinable := true
      fen := startFen
      white := if color = Color.white then some userId else none
      black := if color = Color.black then some userId else none
      offeredDraw := none
      lastMove := none
      moveHistory := []
      createdAt := now
      updatedAt := now }
  ({ userMap := mapSet st.userMap userId gameId,
     gameMap := mapSet st.gameMap gameId game }, game)

/-- `GameManager.deleteGame` (`src/src/gameManager/index.ts` lines 134-148):
for each occupied slot whose id is truthy and whose current binding still
equals the deleted game id, drop the binding; always drop the game itself.
A missing game id skips the binding cleanup entirely. -/
def deleteGameB (st : ManagerB) (gameId : String) : ManagerB :=
  match mapGet st.gameMap gameId with
  | some game =>
    let um1 :=
      match game.white with
      | some w =>
        if w ≠ "" ∧ mapGet st.userMap w = some gameId then mapDelete st.userMap w
        else st.userMap
      | none => st.userMap
    let um2 :=
      match game.black with
      | some b =>
        if b ≠ "" ∧ mapGet um1 b = some gameId then mapDelete um1 b
        else um1
      | none => um1
    { userMap := um2, gameMap := mapDelete st.gameMap gameId }
  | none => { st with gameMap := mapDelete st.gameMap gameId }

/-- `GameManager.makeMove` (`src/src/gameManager/index.ts` lines 169-206).
The second component is the message of a thrown error (`none` on success).
`new Chess(game.fen || undefined)` falls back to the start position on an
empty fen; a constructor throw on a bad fen propagates.  On success the game
record gains the move in `moveHistory` and `lastMove`, the new fen, a cleared
`offeredDraw` and a fresh `updatedAt`; if the engine reports game over, the
game is deleted and both player bindings dropped unconditionally. -/
def makeMoveB (e : Engine) (st : ManagerB) (userId : String) (mv : Move)
    (now : Int) : ManagerB × Option String :=
  match getUserGameB st userId with
  | none => (st, some "User is not in any game.")
  | some game =>
    match (if game.fen = "" then some e.init else e.load game.fen) with
    | none => (st, some "Invalid FEN")
    | some chess =>
      match e.move chess mv with
      | none => (st, some "Invalid move.")
      | some chess2 =>
        let game2 : GameB :=
          { game with moveHistory := game.moveHistory ++ [mv], lastMove := some mv,
                      fen := chess2.fen, offeredDraw := none, updatedAt := now }
        let st1 : ManagerB := { st with gameMap := mapSet st.gameMap game.id game2 }
        if chess2.isGameOver then
          let st2 := deleteGameB st1 game2.id
          let um3 :=
            match game2.white with
            | some w => mapDelete st2.userMap w
            | none => st2.userMap
          let um4 :=
            match game2.black with
            | some b => mapDelete um3 b
            | none => um3
          ({ st2 with userMap := um4 }, none)
        else (st1, none)

/-- Stale selection of one sweep (part_006 lines 287-292): the objects of the
registry snapshot whose `updatedAt + staleThresholdMs < now`, in snapshot
order; the cleanup protocol is invoked on exactly these. -/
def staleOf (entries : List (String × Game)) (thr now : Int) : List Game :=
  (entries.filter (fun en => decide (en.2.updatedAt + thr < now))).map Prod.snd

/-- Observable outcome of one `CleaningService.monitorCleanup` run (part_006
lines 285-297): the propagated `CleanupException` message if the snapshot
iteration threw, the objects handed to the cleanup protocol, and whether the
`setTimeout` rescheduling line at the end of the method was reached. -/
structure SweepRun where
  fault : Option String
  evicted : List Game
  rescheduled : Bool
deriving DecidableEq

/-- One `monitorCleanup` run over a snapshot that either yields the registry
entries or throws with a message (the repository test drives the throwing
case by mocking `Map.prototype.entries`).  A throw is caught and re-raised as
`CleanupException('Error during cleanup: ' + message)`; since the re-raise
exits the method, the rescheduling assignment after the try/catch is only
reached on the fault-free path. -/
def monitorCleanupRun (snapshot : Except String (List (String × Game)))
    (thr now : Int) : SweepRun :=
  match snapshot with
  | Except.error msg =>
    { fault := some ("Error during cleanup: " ++ msg), evicted := [], rescheduled := false }
  | Except.ok entries =>
    { fault := none, evicted := staleOf entries thr now, rescheduled := true }

/-- One fault-free sweep of the deployed composition: `monitorCleanup` over
the part_005 manager with `cleanupProtocol = eraseGame.bind(this)`
(constructor wiring at part_005 lines 47-52).  `Array.from(map.entries())`
snapshots the registry before any eviction, so the stale set is computed
against the pre-sweep state and each stale object is erased in turn. -/
def monitorSweepA (st : ManagerA) (thr now : Int) : ManagerA :=
  (staleOf st.gameMap thr now).foldl eraseGameA st

/-- Constructor result of the part_006 `CleaningService`: the synchronous
first sweep performed before the constructor returns. -/
structure CleaningInit where
  firstSweep : SweepRun
deriving DecidableEq

/-- `CleaningService` constructor (part_006 lines 265-283): a missing cleanup
protocol throws first; positive interval and threshold run `monitorCleanup()`
synchronously; anything else throws.  `hasProtocol` stands for the truthiness
of the injected callback; a real `Map` snapshot cannot throw, so the entries
arrive as a plain list. -/
def mkCleaningService (hasProtocol : Bool) (entries : List (String × Game))
    (cleanupIntervalMs staleThresholdMs now : Int) : Except String CleaningInit :=
  if hasProtocol = false then Except.error "A cleanup protocol function must be provided"
  else if cleanupIntervalMs > 0 ∧ staleThresholdMs > 0 then
    Except.ok ⟨monitorCleanupRun (Except.ok entries) staleThresholdMs now⟩
  else Except.error "Invalid cleanup or stale threshold interval"

/-- `CleaningService` constructor of the part_007 variant (lines 15-25 with
`startCleanup`/`runCleanup` lines 30-46): no cleanup-protocol parameter, the
same interval guard, and a synchronous first sweep that deletes stale entries
from the map directly and reschedules itself inside the try block. -/
def mkCleaningServiceV7 (entries : List (String × Game))
    (cleanupIntervalMs staleThresholdMs now : Int) :
    Except String (List (String × Game) × Bool) :=
  if cleanupIntervalMs > 0 ∧ staleThresholdMs > 0 then
    Except.ok (entries.filter (fun en => decide (¬ (en.2.updatedAt + staleThresholdMs < now))), true)
  else Except.error "Invalid cleanup or stale threshold interval"

/-- Engine snapshot at the start position: white to move, no terminal flag. -/
def esStart : EngineState :=
  { turn := 'w', fen := startFen, isCheckmate := false, isStalemate := false,
    isInsufficientMaterial := false, isThreefoldRepetition := false,
    isDraw := false, isGameOver := false }

/-- Engine snapshot after 1. e4 (fen from the repository test at
`src/gameManager/__tests__/index.test.ts`): black to move, no terminal flag. -/
def esAfterE4 : EngineState :=
  { turn := 'b', fen := "rnbqkbnr/pppppppp/8/8/4P3/8/PPPP1PPP/RNBQKBNR b KQkq - 0 1",
    isCheckmate := false, isStalemate := false, isInsufficientMaterial := false,
    isThreefoldRepetition := false, isDraw := false, isGameOver := false }

/-- A concrete engine used to instantiate the boundary parameter: every load
yields the start snapshot and every move attempt is accepted, yielding the
post-e4 snapshot. -/
def engSimple : Engine :=
  { init := esStart, load := fun _ => some esStart, move := fun _ _ => some esAfterE4 }

/-- The move intent e2-e4. -/
def mvE4 : Move := { fromSq := "e2", toSq := "e4" }

/-- A one-player match: p1 created it as white and nobody joined yet. -/
def gWaiting : Game :=
  { id := "g1", createdAt := 0, updatedAt := 0, fen := startFen,
    white := some ⟨"p1", true⟩, black := none, moves := [], joinable := true,
    drawOfferedBy := none, outcome := none }

/-- A two-player match, p1 as white and p2 as black, no offer, no outcome. -/
def gActive : Game :=
  { id := "g1", createdAt := 0, updatedAt := 0, fen := startFen,
    white := some ⟨"p1", true⟩, black := some ⟨"p2", true⟩, moves := [], joinable := false,
    drawOfferedBy := none, outcome := none }

/-- `gActive` with a pending draw offer from black. -/
def gActiveDrawB : Game := { gActive with drawOfferedBy := some Color.black }

/-- `gActive` concluded by an agreed draw. -/
def gConcluded : Game := { gActive with outcome := some ⟨none, Reason.draw⟩ }

/-- part_005 manager state in which p1 is bound to the waiting match g1. -/
def stBound : ManagerA := { playerBind := [("p1", "g1")], gameMap := [("g1", gWaiting)] }

/-- Match g1 of the rebinding scenario: p1 opened it as white. -/
def gE1 : Game :=
  { id := "g1", createdAt := 0, updatedAt := 0, fen := startFen,
    white := some ⟨"p1", true⟩, black := none, moves := [], joinable := true,
    drawOfferedBy := none, outcome := none }

/-- Match g2 of the rebinding scenario: p1 later joined it as black. -/
def gE2 : Game :=
  { id := "g2", createdAt := 0, updatedAt := 0, fen := startFen,
    white := some ⟨"q1", true⟩, black := some ⟨"p1", true⟩, moves := [], joinable := false,
    drawOfferedBy := none, outcome := none }

/-- part_005 manager state reached by: p1 creates g1, q1 creates g2, p1 joins
g2 (rebinding p1 to g2 while p1 still occupies the white slot of g1). -/
def stRebound : ManagerA :=
  { playerBind := [("q1", "g2"), ("p1", "g2")], gameMap := [("g1", gE1), ("g2", gE2)] }

/-- Registry state after `createGame(p1, white)` from an empty manager with
generated id g1 at time 1. -/
def st6 : ManagerA := (createGameA ⟨[], []⟩ "p1" Color.white "g1" 1 startFen).1

/-- The game record reached by `createGame(p1, white)` then `offerDraw(p1)`:
a pending draw offer on a match whose black side was never filled. -/
def gDrawnSolo : Game :=
  { id := "g1", createdAt := 1, updatedAt := 2, fen := startFen,
    white := some ⟨"p1", true⟩, black := none, moves := [], joinable := true,
    drawOfferedBy := some Color.white, outcome := none }

/-- A match idle since t=4000 (stale at now=10000 under threshold 5000). -/
def gStale : Game :=
  { id := "ga", createdAt := 0, updatedAt := 4000, fen := startFen,
    white := some ⟨"pa", true⟩, black := none, moves := [], joinable := true,
    drawOfferedBy := none, outcome := none }

/-- A match idle since t=5000 (exactly at the threshold at now=10000). -/
def gFresh : Game :=
  { id := "gb", createdAt := 0, updatedAt := 5000, fen := startFen,
    white := some ⟨"pb", true⟩, black := none, moves := [], joinable := true,
    drawOfferedBy := none, outcome := none }

/-- Registry with one stale and one exactly-at-threshold match. -/
def stSweep : ManagerA :=
  { playerBind := [("pa", "ga"), ("pb", "gb")], gameMap := [("ga", gStale), ("gb", gFresh)] }

/-- A `src/src` manager game: p1 white, p2 black, with a pending draw offer
from p2. -/
def gB1 : GameB :=
  { id := "g1", joinable := false, fen := startFen, white := some "p1",
    black := some "p2", offeredDraw := some "p2", lastMove := none,
    moveHistory := [], createdAt := 0, updatedAt := 0 }

/-- `src/src` manager state binding p1 to g1. -/
def stB : ManagerB := { userMap := [("p1", "g1")], gameMap := [("g1", gB1)] }

/-- A `src/src` manager game for the deletion scenario: u1 white, u2 black. -/
def gB9 : GameB :=
  { id := "g1", joinable := false, fen := startFen, white := some "u1",
    black := some "u2", offeredDraw := none, lastMove := none,
    moveHistory := [], createdAt := 0, updatedAt := 0 }

/-- `src/src` manager state where u1 still points at g1 but u2 has been
rebound to another match g9. -/
def stB9 : ManagerB :=
  { userMap := [("u1", "g1"), ("u2", "g9")], gameMap := [("g1", gB9)] }

/-- The record produced by the repeated join of p1 into g1 at time 5. -/
def gRejoined : Game :=
  { gWaiting with black := some ⟨"p1", true⟩, joinable := false, updatedAt := 5 }

/-- A one-player match of the symmetric kind: p3 created it as black and the
white side is still free. -/
def gWaitingB : Game :=
  { id := "g3", createdAt := 0, updatedAt := 0, fen := startFen,
    white := none, black := some ⟨"p3", true⟩, moves := [], joinable := true,
    drawOfferedBy := none, outcome := none }

/-- part_005 manager state in which p3 is bound to the black-created match g3. -/
def stBoundB : ManagerA := { playerBind := [("p3", "g3")], gameMap := [("g3", gWaitingB)] }

/-- The record produced by the repeated join of p3 into g3 at time 5. -/
def gRejoinedW : Game :=
  { gWaitingB with white := some ⟨"p3", true⟩, joinable := false, updatedAt := 5 }

/-- `src/src` manager state where both slot-holders u1 (white) and u2 (black)
still point at g1. -/
def stB9b : ManagerB :=
  { userMap := [("u1", "g1"), ("u2", "g1")], gameMap := [("g1", gB9)] }

theorem mapGet_set_self {α : Type} (m : List (String × α)) (k : String) (v : α) :
    mapGet (mapSet m k v) k = some v := by
  induction m with
  | nil => simp [mapGet, mapSet]
  | cons hd tl ih =>
    obtain ⟨k1, v1⟩ := hd
    by_cases h : k1 = k <;> simp [mapGet, mapSet, h, ih]

theorem mapGet_set_ne {α : Type} (m : List (String × α)) (k k2 : String) (v : α)
    (h : k2 ≠ k) : mapGet (mapSet m k v) k2 = mapGet m k2 := by
  have h3 : k ≠ k2 := Ne.symm h
  induction m with
  | nil => simp [mapGet, mapSet, h3]
  | cons hd tl ih =>
    obtain ⟨k1, v1⟩ := hd
    by_cases h1 : k1 = k
    · subst h1
      simp [mapGet, mapSet, h3]
    · simp only [mapSet, if_neg h1]
      by_cases h2 : k1 = k2 <;> simp [mapGet, h2, ih]

theorem mapGet_delete_self {α : Type} (m : List (String × α)) (k : String) :
    mapGet (mapDelete m k) k = none := by
  induction m with
  | nil => simp [mapGet, mapDelete]
  | cons hd tl ih =>
    obtain ⟨k1, v1⟩ := hd
    by_cases h : k1 = k <;> simp [mapGet, mapDelete, h, ih]

theorem mapGet_delete_ne {α : Type} (m : List (String × α)) (k k2 : String)
    (h : k2 ≠ k) : mapGet (mapDelete m k) k2 = mapGet m k2 := by
  have h3 : k ≠ k2 := Ne.symm h
  induction m with
  | nil => simp [mapGet, mapDelete]
  | cons hd tl ih =>
    obtain ⟨k1, v1⟩ := hd
    by_cases h1 : k1 = k
    · subst h1
      simp [mapGet, mapDelete, h3, ih]
    · simp [mapGet, mapDelete, h1, ih]

theorem mapDelete_of_get_none {α : Type} (m : List (String × α)) (k : String)
    (h : mapGet m k = none) : mapDelete m k = m := by
  induction m with
  | nil => simp [mapDelete]
  | cons hd tl ih =>
    obtain ⟨k1, v1⟩ := hd
    by_cases h1 : k1 = k
    · simp [mapGet, h1] at h
    · simp only [mapGet, if_neg h1] at h
      simp [mapDelete, h1, ih h]

theorem mapGet_mem {α : Type} (m : List (String × α)) (k : String) (v : α)
    (h : mapGet m k = some v) : (k, v) ∈ m := by
  induction m with
  | nil => simp [mapGet] at h
  | cons hd tl ih =>
    obtain ⟨k1, v1⟩ := hd
    by_cases h1 : k1 = k
    · subst h1
      simp [mapGet] at h
      simp [h]
    · simp only [mapGet, if_neg h1] at h
      exact List.mem_cons_of_mem _ (ih h)

theorem mapGet_of_mem {α : Type} (m : List (String × α)) (k : String) (v : α)
    (nd : (m.map Prod.fst).Nodup) (h : (k, v) ∈ m) : mapGet m k = some v := by
  induction m with
  | nil => simp at h
  | cons hd tl ih =>
    obtain ⟨k1, v1⟩ := hd
    simp only [List.map_cons, List.nodup_cons] at nd
    rcases List.mem_cons.mp h with h2 | h2
    · have hk : k = k1 := congrArg Prod.fst h2
      have hv : v = v1 := congrArg Prod.snd h2
      subst hk
      subst hv
      simp [mapGet]
    · have hk : k1 ≠ k := by
        intro he
        subst he
        exact nd.1 (List.mem_map.mpr ⟨(k1, v), h2, rfl⟩)
      simp [mapGet, hk, ih nd.2 h2]

theorem concludeA_drawOfferedBy (c : Color) (ch : EngineState) (g1 : Game) :
    (concludeA c ch g1).drawOfferedBy = g1.drawOfferedBy := by
  unfold concludeA
  split_ifs <;> rfl

theorem concludeA_moves (c : Color) (ch : EngineState) (g1 : Game) :
    (concludeA c ch g1).moves = g1.moves := by
  unfold concludeA
  split_ifs <;> rfl

theorem concludeA_fen (c : Color) (ch : EngineState) (g1 : Game) :
    (concludeA c ch g1).fen = g1.fen := by
  unfold concludeA
  split_ifs <;> rfl

theorem concludeA_updatedAt (c : Color) (ch : EngineState) (g1 : Game) :
    (concludeA c ch g1).updatedAt = g1.updatedAt := by
  unfold concludeA
  split_ifs <;> rfl

/-- Claim C2: whenever a match carries an outcome (Concluded state), each of
makeMove, offerDraw, acceptDraw and resign returns undefined and leaves every
field of the match unchanged (the `reject g` result carries the untouched
game record, so the registry keeps the original). -/
theorem c2_concluded_ops_noop (g : Game) (o : Outcome) (ho : g.outcome = some o)
    (e : Engine) (pid : String) (mv : Move) (now : Int) :
    makeMoveA e g pid mv now = GMResult.reject g ∧
    offerDrawA g pid now = GMResult.reject g ∧
    acceptDrawA g pid now = GMResult.reject g ∧
    resignA g pid now = GMResult.reject g := by
  refine ⟨?_, ?_, ?_, ?_⟩ <;> simp [makeMoveA, offerDrawA, acceptDrawA, resignA, ho]

/-- Concrete run of C2 on the concluded match `gConcluded`: all four
operations reject without touching the record. -/
theorem c2_concluded_ops_noop_witness :
    makeMoveA engSimple gConcluded "p1" mvE4 9 = GMResult.reject gConcluded ∧
    offerDrawA gConcluded "p1" 9 = GMResult.reject gConcluded ∧
    acceptDrawA gConcluded "p1" 9 = GMResult.reject gConcluded ∧
    resignA gConcluded "p1" 9 = GMResult.reject gConcluded :=
  c2_concluded_ops_noop gConcluded ⟨none, Reason.draw⟩ (by decide) engSimple "p1" mvE4 9

/-- Claim C3: in a not-yet-concluded match, makeMove of a bound player rejects
with no mutation when the side to move reported by the engine for the current
board-state differs from the caller's side, and any successful (mutating)
makeMove implies the engine-reported side to move equals the caller's side. -/
theorem c3_turn_gate :
    (∀ (e : Engine) (g : Game) (pid : String) (mv : Move) (now : Int) (c : Color)
      (chess : EngineState),
      g.outcome = none → getPlayerColor g pid = some c → e.load g.fen = some chess →
      turnColorOf chess ≠ c → makeMoveA e g pid mv now = GMResult.reject g) ∧
    (∀ (e : Engine) (g : Game) (pid : String) (mv : Move) (now : Int) (g2 : Game),
      makeMoveA e g pid mv now = GMResult.ok g2 →
      ∃ c chess, getPlayerColor g pid = some c ∧ e.load g.fen = some chess ∧
        turnColorOf chess = c) := by
  constructor
  · intro e g pid mv now c chess h1 h2 h3 h4
    simp [makeMoveA, h1, h2, h3, h4]
  · intro e g pid mv now g2 h
    cases ho : g.outcome with
    | some o => simp [makeMoveA, ho] at h
    | none =>
      cases hc : getPlayerColor g pid with
      | none => simp [makeMoveA, ho, hc] at h
      | some c =>
        cases hl : e.load g.fen with
        | none => simp [makeMoveA, ho, hc, hl] at h
        | some chess =>
          by_cases ht : turnColorOf chess = c
          · exact ⟨c, chess, rfl, rfl, ht⟩
          · simp [makeMoveA, ho, hc, hl, ht] at h

/-- Concrete run of C3: black (p2) tries to move while the engine reports
white to move; the call rejects and the match is untouched. -/
theorem c3_turn_gate_witness :
    makeMoveA engSimple gActive "p2" mvE4 9 = GMResult.reject gActive :=
  c3_turn_gate.1 engSimple gActive "p2" mvE4 9 Color.black esStart
    (by decide) (by decide) rfl (by decide)

/-- Claim C1 fails on the part_005 manager: with p1 already bound to g1,
`createGame` returns undefined and changes nothing, instead of succeeding and
rebinding as the claim states. -/
theorem c1_create_rebind_counterexample :
    createGameA stBound "p1" Color.black "g2" 7 startFen = (stBound, none) ∧
    mapGet stBound.playerBind "p1" = some "g1" := by
  constructor
  · rfl
  · rfl

/-- Claim C1 as amended: in the `src/src` manager, createGame for an
already-bound identity always succeeds, overwrites the binding to the new
match, and leaves every other registry entry (in particular the prior match)
unmodified; in the part_005 manager the same call instead returns undefined
and leaves the whole registry unchanged. -/
theorem c1_create_rebind (st : ManagerB) (uid : String) (color : Color)
    (gid : String) (now : Int) (oldGid : String)
    (_hb : mapGet st.userMap uid = some oldGid) (hne : gid ≠ oldGid) :
    mapGet (createGameB st uid color gid now).1.userMap uid = some gid ∧
    mapGet (createGameB st uid color gid now).1.gameMap gid =
      some (createGameB st uid color gid now).2 ∧
    mapGet (createGameB st uid color gid now).1.gameMap oldGid = mapGet st.gameMap oldGid ∧
    (∀ k, k ≠ gid → mapGet (createGameB st uid color gid now).1.gameMap k =
      mapGet st.gameMap k) ∧
    (∀ u, u ≠ uid → mapGet (createGameB st uid color gid now).1.userMap u =
      mapGet st.userMap u) ∧
    (∀ (stA : ManagerA) (fen0 : String),
      (mapGet stA.playerBind uid).isSome → createGameA stA uid color gid now fen0 = (stA, none)) := by
  refine ⟨?_, ?_, ?_, ?_, ?_, ?_⟩
  · exact mapGet_set_self _ _ _
  · exact mapGet_set_self _ _ _
  · exact mapGet_set_ne _ _ _ _ (Ne.symm hne)
  · intro k hk
    exact mapGet_set_ne _ _ _ _ hk
  · intro u hu
    exact mapGet_set_ne _ _ _ _ hu
  · intro stA fen0 hbound
    simp [createGameA, hbound]

/-- Concrete run of amended C1: p1, bound to g1 in the `src/src` manager,
creates g2; the binding now points at g2 and the g1 record is untouched. -/
theorem c1_create_rebind_witness :
    mapGet (createGameB stB "p1" Color.black "g2" 7).1.userMap "p1" = some "g2" ∧
    mapGet (createGameB stB "p1" Color.black "g2" 7).1.gameMap "g1" = mapGet stB.gameMap "g1" :=
  ⟨(c1_create_rebind stB "p1" Color.black "g2" 7 "g1" (by decide) (by decide)).1,
   (c1_create_rebind stB "p1" Color.black "g2" 7 "g1" (by decide) (by decide)).2.2.1⟩

/-- Claim C4 fails on the part_005 manager: p1 already occupies the white side
of g1, yet a second `joinGame(p1, g1)` is not a no-op — it fills the black
slot with p1 again, flips `joinable` to false and bumps `updatedAt`. -/
theorem c4_rejoin_counterexample :
    getPlayerColor gWaiting "p1" = some Color.white ∧
    gWaiting.joinable = true ∧ gWaiting.black = none ∧
    joinGameA stBound "p1" "g1" 5 =
      ({ playerBind := [("p1", "g1")], gameMap := [("g1", gRejoined)] }, some gRejoined) ∧
    gRejoined.black = some ⟨"p1", true⟩ ∧ gRejoined.joinable = false := by
  refine ⟨?_, ?_, ?_, ?_, ?_, ?_⟩ <;> rfl

/-- Claim C4 as amended: a join by an identity already occupying a side of a
one-sided match does not raise an error, but it is not a no-op: whichever
side the identity occupies, it is assigned to the remaining free side as
well, `joinable` becomes false, `updatedAt` is bumped and the binding is
rewritten to the same match. -/
theorem c4_rejoin_fills_other_side (st : ManagerA) (pid gameId : String) (g : Game)
    (now : Int) (p : Player) (hget : mapGet st.gameMap gameId = some g)
    (_hpid : p.id = pid) :
    (g.white = some p → g.black = none →
      joinGameA st pid gameId now =
        ({ playerBind := mapSet st.playerBind pid gameId,
           gameMap := mapSet st.gameMap gameId
             { g with black := some ⟨pid, true⟩, joinable := false, updatedAt := now } },
         some { g with black := some ⟨pid, true⟩, joinable := false, updatedAt := now })) ∧
    (g.black = some p → g.white = none →
      joinGameA st pid gameId now =
        ({ playerBind := mapSet st.playerBind pid gameId,
           gameMap := mapSet st.gameMap gameId
             { g with white := some ⟨pid, true⟩, joinable := false, updatedAt := now } },
         some { g with white := some ⟨pid, true⟩, joinable := false, updatedAt := now })) := by
  constructor
  · intro hw hb
    simp [joinGameA, hget, hw, hb]
  · intro hb hw
    simp [joinGameA, hget, hw, hb]

/-- Concrete runs of amended C4 on both sides: the repeated join of p1 (white
creator) into g1 fills the black slot, and the repeated join of p3 (black
creator) into g3 fills the white slot. -/
theorem c4_rejoin_fills_other_side_witness :
    joinGameA stBound "p1" "g1" 5 =
      ({ playerBind := mapSet stBound.playerBind "p1" "g1",
         gameMap := mapSet stBound.gameMap "g1" gRejoined }, some gRejoined) ∧
    joinGameA stBoundB "p3" "g3" 5 =
      ({ playerBind := mapSet stBoundB.playerBind "p3" "g3",
         gameMap := mapSet stBoundB.gameMap "g3" gRejoinedW }, some gRejoinedW) :=
  ⟨(c4_rejoin_fills_other_side stBound "p1" "g1" gWaiting 5 ⟨"p1", true⟩
      (by decide) rfl).1 (by decide) (by decide),
   (c4_rejoin_fills_other_side stBoundB "p3" "g3" gWaitingB 5 ⟨"p3", true⟩
      (by decide) rfl).2 (by decide) (by decide)⟩

/-- Claim C6 fails on the part_005 manager: starting from an empty registry,
`createGame(p1, white)` followed by `offerDraw(p1)` reaches a state whose
match has `drawOfferedBy` set while its black side is empty — offerDraw never
checks that both sides are occupied. -/
theorem c6_draw_invariant_counterexample :
    offerDrawM st6 "p1" 2 =
      ({ playerBind := [("p1", "g1")], gameMap := [("g1", gDrawnSolo)] },
       MRet.someR gDrawnSolo) ∧
    gDrawnSolo.drawOfferedBy = some Color.white ∧
    gDrawnSolo.black = none ∧ gDrawnSolo.outcome = none := by
  refine ⟨?_, ?_, ?_, ?_⟩ <;> rfl

/-- Claim C6 as amended: offerDraw takes effect exactly when the caller
resolves to a side of a match with no outcome and no pending offer; both-side
occupancy is not required, so a pending offer does not imply two occupied
sides. It rejects when the match is concluded or an offer is pending, and
propagates a StateSyncError when the caller occupies no side. -/
theorem c6_offer_draw_characterization (g : Game) (pid : String) (now : Int) :
    (∀ c, g.outcome = none → g.drawOfferedBy = none → getPlayerColor g pid = some c →
      offerDrawA g pid now = GMResult.ok { g with drawOfferedBy := some c, updatedAt := now }) ∧
    (g.outcome.isSome ∨ g.drawOfferedBy.isSome → offerDrawA g pid now = GMResult.reject g) ∧
    (g.outcome = none → g.drawOfferedBy = none → getPlayerColor g pid = none →
      offerDrawA g pid now = GMResult.fault g) := by
  refine ⟨?_, ?_, ?_⟩
  · intro c h1 h2 h3
    simp [offerDrawA, h1, h2, h3]
  · intro h
    rcases h with h | h
    · simp [offerDrawA, h]
    · unfold offerDrawA
      by_cases ho : g.outcome.isSome <;> simp [ho, h]
  · intro h1 h2 h3
    simp [offerDrawA, h1, h2, h3]

/-- Concrete run of amended C6: a draw offer on the one-player waiting match
succeeds and records the offer while the black side is still empty. -/
theorem c6_offer_draw_characterization_witness :
    offerDrawA gWaiting "p1" 3 =
      GMResult.ok { gWaiting with drawOfferedBy := some Color.white, updatedAt := 3 } :=
  (c6_offer_draw_characterization gWaiting "p1" 3).1 Color.white (by decide) (by decide) (by decide)

/-- Claim C5 fails on the part_005 manager: an engine-accepted move appends to
the move list, replaces the fen and bumps `updatedAt`, but the pending draw
offer from black survives the move (the manager never clears `drawOfferedBy`
on a move, and its `Game` record has no last-move field at all). -/
theorem c5_move_effects_counterexample :
    makeMoveA engSimple gActiveDrawB "p1" mvE4 7 =
      GMResult.ok { gActiveDrawB with fen := esAfterE4.fen, moves := [mvE4], updatedAt := 7 } ∧
    gActiveDrawB.drawOfferedBy = some Color.black ∧
    ({ gActiveDrawB with fen := esAfterE4.fen, moves := [mvE4], updatedAt := 7 } : Game).drawOfferedBy
      = some Color.black := by
  refine ⟨?_, ?_, ?_⟩ <;> rfl

/-- Claim C5 as amended: on an engine-accepted move, the part_005 manager
appends the move to the history, replaces the board-state and bumps
`updatedAt` but leaves `drawOfferedBy` untouched and has no last-move field;
the `src/src` manager additionally sets `lastMove` and clears the pending
draw offer (and bumps `updatedAt`) as the original claim states. -/
theorem c5_move_success_effects :
    (∀ (e : Engine) (g : Game) (pid : String) (mv : Move) (now : Int) (c : Color)
      (chess chess2 : EngineState),
      g.outcome = none → getPlayerColor g pid = some c → e.load g.fen = some chess →
      turnColorOf chess = c → e.move chess mv = some chess2 →
      makeMoveA e g pid mv now =
        GMResult.ok (concludeA c chess2
          { g with fen := chess2.fen, moves := g.moves ++ [mv], updatedAt := now }) ∧
      (∀ g1 : Game, (concludeA c chess2 g1).drawOfferedBy = g1.drawOfferedBy ∧
        (concludeA c chess2 g1).fen = g1.fen ∧ (concludeA c chess2 g1).moves = g1.moves ∧
        (concludeA c chess2 g1).updatedAt = g1.updatedAt)) ∧
    (∀ (e : Engine) (st : ManagerB) (uid : String) (mv : Move) (now : Int) (game : GameB)
      (chess chess2 : EngineState),
      getUserGameB st uid = some game → game.fen ≠ "" → e.load game.fen = some chess →
      e.move chess mv = some chess2 → chess2.isGameOver = false →
      makeMoveB e st uid mv now =
        ({ st with gameMap := mapSet st.gameMap game.id
                     { game with
                         moveHistory := game.moveHistory ++ [mv], lastMove := some mv,
                         fen := chess2.fen, offeredDraw := none, updatedAt := now } }, none)) := by
  constructor
  · intro e g pid mv now c chess chess2 h1 h2 h3 h4 h5
    constructor
    · simp [makeMoveA, h1, h2, h3, h4, h5]
    · intro g1
      exact ⟨concludeA_drawOfferedBy c chess2 g1, concludeA_fen c chess2 g1,
             concludeA_moves c chess2 g1, concludeA_updatedAt c chess2 g1⟩
  · intro e st uid mv now game chess chess2 h1 h2 h3 h4 h5
    simp [makeMoveB, h1, h2, h3, h4, h5]

/-- Concrete run of amended C5 on both managers: the part_005 move keeps the
(empty) offer field as it was, the `src/src` move writes all five fields. -/
theorem c5_move_success_effects_witness :
    makeMoveA engSimple gActive "p1" mvE4 7 =
      GMResult.ok (concludeA Color.white esAfterE4
        { gActive with fen := esAfterE4.fen, moves := gActive.moves ++ [mvE4], updatedAt := 7 }) ∧
    makeMoveB engSimple stB "p1" mvE4 7 =
      ({ stB with gameMap := mapSet stB.gameMap gB1.id
                    { gB1 with
                        moveHistory := gB1.moveHistory ++ [mvE4], lastMove := some mvE4,
                        fen := esAfterE4.fen, offeredDraw := none, updatedAt := 7 } }, none) :=
  ⟨(c5_move_success_effects.1 engSimple gActive "p1" mvE4 7 Color.white esStart esAfterE4
      (by decide) (by decide) rfl (by decide) rfl).1,
   c5_move_success_effects.2 engSimple stB "p1" mvE4 7 gB1 esStart esAfterE4
      (by decide) (by decide) rfl rfl rfl⟩

/-- Claim C8 fails on the rescheduling half: when the snapshot iteration
throws (as in the repository test that mocks `Map.prototype.entries`), the
fault is raised as a `CleanupException`, but the `setTimeout` line after the
try/catch is never reached, so the sweep is not rescheduled. -/
theorem c8_fault_counterexample :
    (monitorCleanupRun (Except.error "Map entries failed") 5000 10000).fault =
      some "Error during cleanup: Map entries failed" ∧
    (monitorCleanupRun (Except.error "Map entries failed") 5000 10000).rescheduled = false := by
  exact ⟨rfl, rfl⟩

/-- Claim C8 as amended: a sweep whose snapshot iteration throws propagates
`CleanupException('Error during cleanup: ' + message)` to the owner of the
scheduler and performs no eviction, but is not rescheduled; only a fault-free
sweep reaches the rescheduling line at the end of `monitorCleanup`. -/
theorem c8_fault_vs_reschedule (thr now : Int) :
    (∀ msg, monitorCleanupRun (Except.error msg) thr now =
      { fault := some ("Error during cleanup: " ++ msg), evicted := [], rescheduled := false }) ∧
    (∀ entries, (monitorCleanupRun (Except.ok entries) thr now).fault = none ∧
      (monitorCleanupRun (Except.ok entries) thr now).rescheduled = true) := by
  exact ⟨fun msg => rfl, fun entries => ⟨rfl, rfl⟩⟩

/-- Claim C10: the part_006 `CleaningService` constructor throws exactly when
the cleanup interval or the stale threshold is non-positive or no cleanup
protocol is supplied, and otherwise runs its first sweep synchronously before
returning (its result records that sweep); the part_007 variant, which takes
no protocol, throws exactly when an interval is non-positive. -/
theorem c10_constructor_guard (hasProtocol : Bool) (entries : List (String × Game))
    (i s n : Int) :
    ((∃ msg, mkCleaningService hasProtocol entries i s n = Except.error msg) ↔
      (hasProtocol = false ∨ i ≤ 0 ∨ s ≤ 0)) ∧
    (hasProtocol = true → 0 < i → 0 < s →
      mkCleaningService hasProtocol entries i s n =
        Except.ok ⟨{ fault := none, evicted := staleOf entries s n, rescheduled := true }⟩) ∧
    ((∃ msg, mkCleaningServiceV7 entries i s n = Except.error msg) ↔ (i ≤ 0 ∨ s ≤ 0)) ∧
    (0 < i → 0 < s →
      mkCleaningServiceV7 entries i s n =
        Except.ok (entries.filter (fun en => decide (¬ (en.2.updatedAt + s < n))), true)) := by
  refine ⟨?_, ?_, ?_, ?_⟩
  · unfold mkCleaningService
    split_ifs with h1 h2
    · simp [h1]
    · constructor
      · rintro ⟨msg, hmsg⟩
        simp at hmsg
      · rintro (h | h | h)
        · simp [h1] at h
        · omega
        · omega
    · constructor
      · intro _
        right
        omega
      · intro _
        exact ⟨_, rfl⟩
  · intro hp hi hs
    unfold mkCleaningService
    rw [hp]
    simp [monitorCleanupRun]
    omega
  · unfold mkCleaningServiceV7
    split_ifs with h2
    · constructor
      · rintro ⟨msg, hmsg⟩
        simp at hmsg
      · rintro (h | h) <;> omega
    · constructor
      · intro _
        omega
      · intro _
        exact ⟨_, rfl⟩
  · intro hi hs
    unfold mkCleaningServiceV7
    rw [if_pos ⟨hi, hs⟩]

/-- Concrete run of C10: with a protocol and positive parameters over the
two-match registry, construction succeeds and the synchronous first sweep is
recorded in the result. -/
theorem c10_constructor_guard_witness :
    mkCleaningService true stSweep.gameMap 1000 5000 10000 =
      Except.ok ⟨{ fault := none, evicted := staleOf stSweep.gameMap 5000 10000,
                   rescheduled := true }⟩ :=
  (c10_constructor_guard true stSweep.gameMap 1000 5000 10000).2.1 rfl (by decide) (by decide)

theorem cond_delete_preserve (um : List (String × String)) (w gid u : String)
    (h : mapGet um u ≠ some gid) :
    mapGet (if w ≠ "" ∧ mapGet um w = some gid then mapDelete um w else um) u = mapGet um u := by
  split_ifs with hc
  · by_cases hu : u = w
    · subst hu
      exact absurd hc.2 h
    · exact mapGet_delete_ne um w u hu
  · rfl

theorem cond_delete_preserve_ne (um : List (String × String)) (w gid u : String)
    (h : u ≠ w) :
    mapGet (if w ≠ "" ∧ mapGet um w = some gid then mapDelete um w else um) u = mapGet um u := by
  split_ifs with hc
  · exact mapGet_delete_ne um w u h
  · rfl

theorem cond_delete_none (um : List (String × String)) (b gid w : String)
    (h : mapGet um w = none) :
    mapGet (if b ≠ "" ∧ mapGet um b = some gid then mapDelete um b else um) w = none := by
  split_ifs with hc
  · by_cases hw : w = b
    · subst hw
      exact mapGet_delete_self um w
    · rw [mapGet_delete_ne um b w hw]
      exact h
  · exact h

theorem cond_delete_clears (um : List (String × String)) (b gid : String)
    (hbne : b ≠ "") (hbind : mapGet um b = some gid) :
    mapGet (if b ≠ "" ∧ mapGet um b = some gid then mapDelete um b else um) b = none := by
  rw [if_pos ⟨hbne, hbind⟩]
  exact mapGet_delete_self um b

/-- Claim C9 fails on the part_005 `eraseGame`: p1 occupies the white slot of
g1 but has since been rebound to the still-live match g2; erasing g1 deletes
the binding of p1 anyway, although it no longer points at the erased match. -/
theorem c9_erase_counterexample :
    mapGet stRebound.playerBind "p1" = some "g2" ∧
    mapGet (eraseGameA stRebound gE1).playerBind "p1" = none ∧
    mapGet (eraseGameA stRebound gE1).gameMap "g2" = some gE2 ∧
    mapGet (eraseGameA stRebound gE1).gameMap "g1" = none := by
  refine ⟨?_, ?_, ?_, ?_⟩ <;> rfl

/-- Claim C9 as amended: the `src/src` `deleteGame` removes the match, leaves
every other match untouched, deletes the binding of a slot-holder of the
deleted match (white or black slot) when that binding still points at the
match, and preserves the binding of every identity that does not point at the
match or occupies no slot of it; a missing match id changes no binding.  The
part_005 `eraseGame` instead deletes a slot-holder binding even when it
points at a different match (see the counterexample). -/
theorem c9_delete_bindings (st : ManagerB) (gid : String) :
    mapGet (deleteGameB st gid).gameMap gid = none ∧
    (∀ k, k ≠ gid → mapGet (deleteGameB st gid).gameMap k = mapGet st.gameMap k) ∧
    (∀ u, mapGet st.userMap u ≠ some gid →
      mapGet (deleteGameB st gid).userMap u = mapGet st.userMap u) ∧
    (mapGet st.gameMap gid = none → (deleteGameB st gid).userMap = st.userMap) ∧
    (∀ game u, mapGet st.gameMap gid = some game → game.white ≠ some u →
      game.black ≠ some u → mapGet (deleteGameB st gid).userMap u = mapGet st.userMap u) ∧
    (∀ game w, mapGet st.gameMap gid = some game → game.white = some w → w ≠ "" →
      mapGet st.userMap w = some gid → mapGet (deleteGameB st gid).userMap w = none) ∧
    (∀ game b, mapGet st.gameMap gid = some game → game.black = some b → b ≠ "" →
      mapGet st.userMap b = some gid → mapGet (deleteGameB st gid).userMap b = none) := by
  cases hg : mapGet st.gameMap gid with
  | none =>
    refine ⟨?_, ?_, ?_, ?_, ?_, ?_, ?_⟩
    · simp [deleteGameB, hg, mapGet_delete_self]
    · intro k hk
      simp [deleteGameB, hg, mapGet_delete_ne st.gameMap gid k hk]
    · intro u _
      simp [deleteGameB, hg]
    · intro _
      simp [deleteGameB, hg]
    · intro game u hga
      exact absurd hga (by simp)
    · intro game w hga
      exact absurd hga (by simp)
    · intro game b hga
      exact absurd hga (by simp)
  | some game =>
    have hum : (deleteGameB st gid).userMap =
        (match game.black with
         | some b =>
           if b ≠ "" ∧ mapGet (match game.white with
             | some w => if w ≠ "" ∧ mapGet st.userMap w = some gid
                         then mapDelete st.userMap w else st.userMap
             | none => st.userMap) b = some gid
           then mapDelete (match game.white with
             | some w => if w ≠ "" ∧ mapGet st.userMap w = some gid
                         then mapDelete st.userMap w else st.userMap
             | none => st.userMap) b
           else (match game.white with
             | some w => if w ≠ "" ∧ mapGet st.userMap w = some gid
                         then mapDelete st.userMap w else st.userMap
             | none => st.userMap)
         | none =>
           (match game.white with
            | some w => if w ≠ "" ∧ mapGet st.userMap w = some gid
                        then mapDelete st.userMap w else st.userMap
            | none => st.userMap)) := by
      simp [deleteGameB, hg]
    have hgm : (deleteGameB st gid).gameMap = mapDelete st.gameMap gid := by
      simp [deleteGameB, hg]
    refine ⟨?_, ?_, ?_, ?_, ?_, ?_, ?_⟩
    · rw [hgm]
      exact mapGet_delete_self st.gameMap gid
    · intro k hk
      rw [hgm]
      exact mapGet_delete_ne st.gameMap gid k hk
    · intro u hu
      rw [hum]
      cases hw : game.white with
      | none =>
        cases hb : game.black with
        | none => rfl
        | some b => exact cond_delete_preserve st.userMap b gid u hu
      | some w =>
        have s1 : mapGet (if w ≠ "" ∧ mapGet st.userMap w = some gid
            then mapDelete st.userMap w else st.userMap) u = mapGet st.userMap u :=
          cond_delete_preserve st.userMap w gid u hu
        cases hb : game.black with
        | none => exact s1
        | some b =>
          rw [cond_delete_preserve _ b gid u (by rw [s1]; exact hu)]
          exact s1
    · intro hnone
      exact absurd hnone (by simp)
    · intro game2 u hga hw2 hb2
      cases hga
      rw [hum]
      cases hw : game.white with
      | none =>
        cases hb : game.black with
        | none => rfl
        | some b =>
          have hub : u ≠ b := by
            intro he
            subst he
            rw [hb] at hb2
            exact hb2 rfl
          exact cond_delete_preserve_ne st.userMap b gid u hub
      | some w =>
        have huw : u ≠ w := by
          intro he
          subst he
          rw [hw] at hw2
          exact hw2 rfl
        have s1 : mapGet (if w ≠ "" ∧ mapGet st.userMap w = some gid
            then mapDelete st.userMap w else st.userMap) u = mapGet st.userMap u :=
          cond_delete_preserve_ne st.userMap w gid u huw
        cases hb : game.black with
        | none => exact s1
        | some b =>
          have hub : u ≠ b := by
            intro he
            subst he
            rw [hb] at hb2
            exact hb2 rfl
          rw [cond_delete_preserve_ne _ b gid u hub]
          exact s1
    · intro game2 w hga hw2 hwne hbind
      cases hga
      rw [hum]
      rw [hw2]
      have s1 : mapGet (if w ≠ "" ∧ mapGet st.userMap w = some gid
          then mapDelete st.userMap w else st.userMap) w = none := by
        rw [if_pos ⟨hwne, hbind⟩]
        exact mapGet_delete_self st.userMap w
      cases hb : game.black with
      | none => exact s1
      | some b => exact cond_delete_none _ b gid w s1
    · intro game2 b hga hb2 hbne hbind
      cases hga
      rw [hum, hb2]
      cases hw : game.white with
      | none => exact cond_delete_clears st.userMap b gid hbne hbind
      | some w =>
        by_cases hbw : b = w
        · subst hbw
          exact cond_delete_none _ b gid b (cond_delete_clears st.userMap b gid hbne hbind)
        · exact cond_delete_clears _ b gid hbne
            (by rw [cond_delete_preserve_ne st.userMap w gid b hbw]; exact hbind)

/-- Concrete runs of amended C9: deleting g1 clears the binding of the white
slot-holder u1 (still pointing at g1), preserves the binding of u2 when it
was rebound to g9, and clears the binding of the black slot-holder u2 when it
still points at g1. -/
theorem c9_delete_bindings_witness :
    mapGet (deleteGameB stB9 "g1").userMap "u1" = none ∧
    mapGet (deleteGameB stB9 "g1").userMap "u2" = mapGet stB9.userMap "u2" ∧
    mapGet (deleteGameB stB9b "g1").userMap "u2" = none :=
  ⟨(c9_delete_bindings stB9 "g1").2.2.2.2.2.1 gB9 "u1"
     (by decide) (by decide) (by decide) (by decide),
   (c9_delete_bindings stB9 "g1").2.2.1 "u2" (by decide),
   (c9_delete_bindings stB9b "g1").2.2.2.2.2.2 gB9 "u2"
     (by decide) (by decide) (by decide) (by decide)⟩

theorem eraseGameA_gameMap (st : ManagerA) (g : Game) (h : g.id ≠ "") :
    (eraseGameA st g).gameMap = mapDelete st.gameMap g.id := by
  simp [eraseGameA, h]

theorem foldl_erase_gameMap (l : List Game) (st : ManagerA) (h : ∀ g ∈ l, g.id ≠ "") :
    (l.foldl eraseGameA st).gameMap = l.foldl (fun m2 g => mapDelete m2 g.id) st.gameMap := by
  induction l generalizing st with
  | nil => rfl
  | cons g l ih =>
    rw [List.foldl_cons, List.foldl_cons,
      ih (eraseGameA st g) (fun g2 h2 => h g2 (List.mem_cons_of_mem g h2)),
      eraseGameA_gameMap st g (h g (List.mem_cons_self g l))]

theorem mapGet_foldl_deleteById (l : List Game) (m : List (String × Game)) (gid : String) :
    mapGet (l.foldl (fun m2 g => mapDelete m2 g.id) m) gid = none ↔
      (∃ g ∈ l, g.id = gid) ∨ mapGet m gid = none := by
  induction l generalizing m with
  | nil => simp
  | cons g l ih =>
    rw [List.foldl_cons, ih]
    by_cases hid : g.id = gid
    · constructor
      · intro _
        exact Or.inl ⟨g, List.mem_cons_self g l, hid⟩
      · intro _
        right
        rw [← hid]
        exact mapGet_delete_self m g.id
    · rw [mapGet_delete_ne m g.id gid (fun he => hid he.symm)]
      constructor
      · rintro (⟨g2, hg2, hg2id⟩ | hn)
        · exact Or.inl ⟨g2, List.mem_cons_of_mem g hg2, hg2id⟩
        · exact Or.inr hn
      · rintro (⟨g2, hg2, hg2id⟩ | hn)
        · rcases List.mem_cons.mp hg2 with rfl | hmem
          · exact absurd hg2id hid
          · exact Or.inl ⟨g2, hmem, hg2id⟩
        · exact Or.inr hn

theorem mem_staleOf (m : List (String × Game)) (thr now : Int) (g2 : Game) :
    g2 ∈ staleOf m thr now ↔ (∃ k, (k, g2) ∈ m) ∧ g2.updatedAt + thr < now := by
  unfold staleOf
  rw [List.mem_map]
  constructor
  · rintro ⟨⟨k, v⟩, hmem, rfl⟩
    rw [List.mem_filter] at hmem
    exact ⟨⟨k, hmem.1⟩, of_decide_eq_true hmem.2⟩
  · rintro ⟨⟨k, hk⟩, hc⟩
    exact ⟨(k, g2), List.mem_filter.mpr ⟨hk, decide_eq_true hc⟩, rfl⟩

/-- Claim C7: a sweep of the stale reaper over a well-formed registry (each
entry keyed by its game id, ids nonempty and unique) evicts a match exactly
when `updatedAt + staleThreshold < now`, with strict inequality, via the
erase path. -/
theorem c7_stale_eviction (st : ManagerA) (thr now : Int) (gid : String) (g : Game)
    (hwf : ∀ p ∈ st.gameMap, p.2.id = p.1 ∧ p.2.id ≠ "")
    (hnd : (st.gameMap.map Prod.fst).Nodup)
    (hget : mapGet st.gameMap gid = some g) :
    mapGet (monitorSweepA st thr now).gameMap gid = none ↔ g.updatedAt + thr < now := by
  have hids : ∀ g2 ∈ staleOf st.gameMap thr now, g2.id ≠ "" := by
    intro g2 hmem
    obtain ⟨⟨k, hk⟩, _⟩ := (mem_staleOf st.gameMap thr now g2).mp hmem
    exact (hwf (k, g2) hk).2
  rw [monitorSweepA, foldl_erase_gameMap _ _ hids, mapGet_foldl_deleteById]
  constructor
  · rintro (⟨g2, hmem, hid⟩ | hnone)
    · obtain ⟨⟨k, hk⟩, hstale⟩ := (mem_staleOf st.gameMap thr now g2).mp hmem
      have hkid : g2.id = k := (hwf (k, g2) hk).1
      have hkgid : k = gid := by rw [← hkid, hid]
      subst hkgid
      have hg2get : mapGet st.gameMap k = some g2 := mapGet_of_mem _ _ _ hnd hk
      rw [hget] at hg2get
      cases hg2get
      exact hstale
    · rw [hget] at hnone
      cases hnone
  · intro hstale
    refine Or.inl ⟨g, ?_, (hwf (gid, g) (mapGet_mem _ _ _ hget)).1⟩
    exact (mem_staleOf st.gameMap thr now g).mpr ⟨⟨gid, mapGet_mem _ _ _ hget⟩, hstale⟩

/-- Concrete run of C7 with the numbers of the claim: with threshold 5000 at
now=10000, the match last updated at 4000 is evicted (4000+5000 < 10000),
while the match last updated at 5000 (exactly at the threshold) is kept. -/
theorem c7_stale_eviction_witness :
    mapGet (monitorSweepA stSweep 5000 10000).gameMap "ga" = none ∧
    mapGet (monitorSweepA stSweep 5000 10000).gameMap "gb" ≠ none :=
  ⟨(c7_stale_eviction stSweep 5000 10000 "ga" gStale (by decide) (by decide) (by decide)).mpr
     (by decide),
   fun h =>
     absurd ((c7_stale_eviction stSweep 5000 10000 "gb" gFresh (by decide) (by decide)
       (by decide)).mp h) (by decide)⟩
